import Mathlib

/-!
Verification of the creational design-pattern notebooks of this repository:
the SettingsManager singleton (Singleton.ipynb) and the LoggerFactory
factory method (the unnamed notebook). The Python classes are embedded as
pure Lean functions over an explicit process state, so that object identity,
one-time initialization and mutation in place are observable.
-/

set_option autoImplicit false

namespace DesignPatterns

/-- Association-list lookup with a decidable key type. This embeds both
Python dict lookup (dict.get returns None on an absent key) and attribute
access on our explicit heap. -/
def lookupA {κ α : Type} [DecidableEq κ] : List (κ × α) → κ → Option α
  | [], _ => none
  | (k1, v1) :: rest, k => if k = k1 then some v1 else lookupA rest k

/-- Association-list insert-or-overwrite. This embeds Python dict assignment
d[k] = v: the first entry for k is overwritten in place when present,
otherwise the new entry is appended at the end. -/
def updateA {κ α : Type} [DecidableEq κ] : List (κ × α) → κ → α → List (κ × α)
  | [], k, v => [(k, v)]
  | (k1, v1) :: rest, k, v =>
      if k = k1 then (k, v) :: rest else (k1, v1) :: updateA rest k v

/-- The keys of an association list, in order. -/
def keysA {κ α : Type} (l : List (κ × α)) : List κ := l.map Prod.fst

/-- The _settings dict of a SettingsManager object: a mapping from
setting-name (text) to setting-value (text). -/
abbrev Settings := List (String × String)

/-- A heap of SettingsManager objects: object identity (allocation id of
the underlying super().__new__ call) mapped to the _settings attribute of
that object. References handed to callers are allocation ids, so two
references are the same object exactly when the ids are equal. -/
abbrev Heap := List (Nat × Settings)

/-- The process-wide state relevant to the SettingsManager class:
the allocation counter for fresh object identities, the class attribute
SettingsManager._instance (None or a reference), the heap of allocated
objects, and a counter of how many times the one-time setup method has
executed (it is not data of the Python program, only an event counter that
makes the exactly-once claim statable). -/
structure SMState where
  nextId : Nat
  _instance : Option Nat
  heap : Heap
  initCount : Nat
  deriving DecidableEq

/-- The fresh module state: SettingsManager._instance is None, no object
allocated, the setup method never run. -/
def SMState.start : SMState := ⟨0, none, [], 0⟩

/-- Embeds SettingsManager._initialize: the _settings dict it installs on
the freshly created object, holding the single default entry mapping
"theme" to "dark". -/
def defaultSettings : Settings := [("theme", "dark")]

/-- Embeds SettingsManager.__new__, i.e. an object call SettingsManager():
if cls._instance is None, allocate one fresh object, store it in
cls._instance and run the one-time setup on it (installing the default
settings); in every case return cls._instance. The returned Nat is the
object identity of the returned reference. -/
def SettingsManager.new (st : SMState) : Nat × SMState :=
  match st._instance with
  | some r => (r, st)
  | none =>
      let r := st.nextId
      (r, ⟨r + 1, some r, updateA st.heap r defaultSettings, st.initCount + 1⟩)

/-- Embeds SettingsManager.set_setting called on the object with identity r:
self._settings[setting_name] = setting_value, an in-place dict update on
that one object. The result is none only when r is not an allocated object,
which cannot happen for references produced by object calls. -/
def SettingsManager.set_setting (st : SMState) (r : Nat)
    (setting_name setting_value : String) : Option SMState :=
  match lookupA st.heap r with
  | none => none
  | some s =>
      some ⟨st.nextId, st._instance,
            updateA st.heap r (updateA s setting_name setting_value),
            st.initCount⟩

/-- Embeds SettingsManager.get_setting called on the object with identity r:
return self._settings.get(setting_name), paired with the state after the
call. The outer Option is none only when r is not an allocated object; the
inner Option is the Python return value, with none as the absent marker
(dict.get returns None). -/
def SettingsManager.get_setting (st : SMState) (r : Nat)
    (setting_name : String) : Option (Option String × SMState) :=
  match lookupA st.heap r with
  | none => none
  | some s => some (lookupA s setting_name, st)

/-- The references returned by n successive object calls SettingsManager()
starting from the fresh module state, in order, with the final state. -/
def acquireN : Nat → List Nat × SMState
  | 0 => ([], SMState.start)
  | n + 1 =>
      let p := acquireN n
      let q := SettingsManager.new p.2
      (p.1 ++ [q.1], q.2)

/-- The state after the first object call: one object, identity 0, holding
the default settings; the class slot points at it; setup ran once. -/
def SMState.afterFirst : SMState := ⟨1, some 0, [(0, defaultSettings)], 1⟩

/-- One observable API step on the process state: an object call, a
set_setting call on some reference, or a get_setting call on some
reference. -/
inductive Step : SMState → SMState → Prop where
  | new (st : SMState) : Step st (SettingsManager.new st).2
  | set (st : SMState) (r : Nat) (name value : String) (st1 : SMState) :
      SettingsManager.set_setting st r name value = some st1 → Step st st1
  | get (st : SMState) (r : Nat) (name : String) (v : Option String)
      (st1 : SMState) :
      SettingsManager.get_setting st r name = some (v, st1) → Step st st1

/-- Zero or more API steps. -/
inductive Reach : SMState → SMState → Prop where
  | refl (st : SMState) : Reach st st
  | tail {st1 st2 st3 : SMState} : Reach st1 st2 → Step st2 st3 → Reach st1 st3

/-- The logger classes of the factory-method notebook. Each carries the
allocation id it was constructed with, so object identity is observable. -/
inductive Logger where
  | consoleLogger (oid : Nat)
  | fileLogger (oid : Nat)
  | databaseLogger (oid : Nat)
  deriving DecidableEq

/-- The object identity of a logger. -/
def Logger.oid : Logger → Nat
  | consoleLogger i => i
  | fileLogger i => i
  | databaseLogger i => i

/-- Embeds LoggerFactory.create_logger, with an explicit allocation counter
n so that the freshness of each constructed logger is observable: dispatch
on logger_type to a newly constructed ConsoleLogger, FileLogger or
DatabaseLogger, and raise ValueError (modelled as Except.error with the
message of the source) for every other argument. -/
def LoggerFactory.create_logger (logger_type : String) (n : Nat) :
    Except String (Logger × Nat) :=
  if logger_type = "console" then Except.ok (Logger.consoleLogger n, n + 1)
  else if logger_type = "file" then Except.ok (Logger.fileLogger n, n + 1)
  else if logger_type = "database" then Except.ok (Logger.databaseLogger n, n + 1)
  else Except.error "Invalid logger type argument"

/-- The end-to-end scenario: a first object call, read "theme", set "theme"
to "light" through the first reference, a second (fresh) object call, read
"theme" through the second reference, set "font" to "serif", read "font"
and finally read "theme" again. Returns the four observed values. -/
def endToEndRun : Option (Option String × Option String × Option String × Option String) :=
  let p1 := SettingsManager.new SMState.start
  match SettingsManager.get_setting p1.2 p1.1 "theme" with
  | none => none
  | some (v1, st1) =>
    match SettingsManager.set_setting st1 p1.1 "theme" "light" with
    | none => none
    | some st2 =>
      let p2 := SettingsManager.new st2
      match SettingsManager.get_setting p2.2 p2.1 "theme" with
      | none => none
      | some (v2, st3) =>
        match SettingsManager.set_setting st3 p2.1 "font" "serif" with
        | none => none
        | some st4 =>
          match SettingsManager.get_setting st4 p2.1 "font" with
          | none => none
          | some (v3, st5) =>
            match SettingsManager.get_setting st5 p2.1 "theme" with
            | none => none
            | some (v4, _) => some (v1, v2, v3, v4)

/-! ## Basic lemmas about the association-list operations -/

theorem lookupA_eq_none_iff {κ α : Type} [DecidableEq κ]
    (l : List (κ × α)) (k : κ) : lookupA l k = none ↔ k ∉ keysA l := by
  induction l with
  | nil => simp [lookupA, keysA]
  | cons p rest ih =>
      obtain ⟨k1, v1⟩ := p
      by_cases hk : k = k1 <;> simp [lookupA, keysA, hk] at ih ⊢
      exact ih

theorem lookupA_mem {κ α : Type} [DecidableEq κ]
    {l : List (κ × α)} {k : κ} {v : α} (h : lookupA l k = some v) :
    (k, v) ∈ l := by
  induction l with
  | nil => simp [lookupA] at h
  | cons p rest ih =>
      obtain ⟨k1, v1⟩ := p
      by_cases hk : k = k1
      · simp [lookupA, hk] at h
        simp [hk, h]
      · simp [lookupA, hk] at h
        exact List.mem_cons_of_mem _ (ih h)

theorem lookupA_updateA_self {κ α : Type} [DecidableEq κ]
    (l : List (κ × α)) (k : κ) (v : α) :
    lookupA (updateA l k v) k = some v := by
  induction l with
  | nil => simp [lookupA, updateA]
  | cons p rest ih =>
      obtain ⟨k1, v1⟩ := p
      by_cases hk : k = k1 <;> simp [lookupA, updateA, hk, ih]

theorem lookupA_updateA_ne {κ α : Type} [DecidableEq κ]
    (l : List (κ × α)) (k k1 : κ) (v : α) (h : k1 ≠ k) :
    lookupA (updateA l k v) k1 = lookupA l k1 := by
  induction l with
  | nil => simp [lookupA, updateA, h]
  | cons p rest ih =>
      obtain ⟨k2, v2⟩ := p
      by_cases hk : k = k2
      · subst hk
        simp [lookupA, updateA, h]
      · by_cases hk1 : k1 = k2 <;> simp [lookupA, updateA, hk, hk1, ih]

theorem keysA_updateA {κ α : Type} [DecidableEq κ]
    (l : List (κ × α)) (k : κ) (v : α) :
    keysA (updateA l k v) = if k ∈ keysA l then keysA l else keysA l ++ [k] := by
  induction l with
  | nil => simp [keysA, updateA]
  | cons p rest ih =>
      obtain ⟨k1, v1⟩ := p
      by_cases hk : k = k1
      · simp [keysA, updateA, hk]
      · simp only [updateA, if_neg hk, keysA, List.map_cons]
        simp only [keysA] at ih
        rw [ih]
        by_cases hmem : k ∈ List.map Prod.fst rest
        · simp [hmem, hk]
        · simp [hmem, hk]

/-! ## The state after the first object call -/

theorem new_start : SettingsManager.new SMState.start = (0, SMState.afterFirst) := rfl

theorem new_afterFirst :
    SettingsManager.new SMState.afterFirst = (0, SMState.afterFirst) := rfl

theorem acquireN_succ (n : Nat) :
    acquireN (n + 1) = (List.replicate (n + 1) 0, SMState.afterFirst) := by
  induction n with
  | zero => rfl
  | succ m ih =>
      show (let p := acquireN (m + 1);
            let q := SettingsManager.new p.2;
            (p.1 ++ [q.1], q.2)) = _
      rw [ih]
      simp [new_afterFirst, List.replicate_succ']

/-! ## Shape lemmas for the three methods -/

theorem new_of_some {st : SMState} {r : Nat} (h : st._instance = some r) :
    SettingsManager.new st = (r, st) := by
  simp [SettingsManager.new, h]

theorem set_setting_eq {st st1 : SMState} {r : Nat} {name value : String}
    (h : SettingsManager.set_setting st r name value = some st1) :
    ∃ s, lookupA st.heap r = some s ∧
      st1 = ⟨st.nextId, st._instance,
             updateA st.heap r (updateA s name value), st.initCount⟩ := by
  unfold SettingsManager.set_setting at h
  cases hl : lookupA st.heap r with
  | none => rw [hl] at h; cases h
  | some s =>
      rw [hl] at h
      exact ⟨s, rfl, (Option.some.inj h).symm⟩

theorem get_setting_state_eq {st st1 : SMState} {r : Nat} {name : String}
    {v : Option String}
    (h : SettingsManager.get_setting st r name = some (v, st1)) : st1 = st := by
  unfold SettingsManager.get_setting at h
  cases hl : lookupA st.heap r with
  | none => rw [hl] at h; cases h
  | some s =>
      rw [hl] at h
      exact (congrArg Prod.snd (Option.some.inj h)).symm

theorem create_logger_ok {t : String} {n : Nat} {l : Logger} {n1 : Nat}
    (h : LoggerFactory.create_logger t n = Except.ok (l, n1)) :
    l.oid = n ∧ n1 = n + 1 := by
  unfold LoggerFactory.create_logger at h
  split_ifs at h with h1 h2 h3 <;> injection h with hp
  all_goals (injection hp with ha hb; subst ha; subst hb; exact ⟨rfl, rfl⟩)

/-! ## The claims -/

/-- C1: Single-instance property: for every sequence of object calls
SettingsManager() from the fresh module state, every returned reference is
identical (same object identity) to the first reference returned. -/
theorem c1_single_instance_property (n r : Nat) (hr : r ∈ (acquireN n).1) :
    r = (acquireN n).1.headI := by
  cases n with
  | zero => simp [acquireN, SMState.start] at hr
  | succ m =>
      rw [acquireN_succ] at hr ⊢
      simp [List.mem_replicate] at hr
      simp [List.replicate_succ, hr]

theorem c1_single_instance_property_witness :
    (0 : Nat) ∈ (acquireN 2).1 ∧ (0 : Nat) = (acquireN 2).1.headI :=
  ⟨by decide, c1_single_instance_property 2 0 (by decide)⟩

/-- C2: One-time initialization: immediately after the first object call,
get_setting "theme" returns "dark", and the one-time setup executes exactly
once no matter how many further object calls follow. -/
theorem c2_one_time_init :
    SettingsManager.get_setting (SettingsManager.new SMState.start).2
        (SettingsManager.new SMState.start).1 "theme"
      = some (some "dark", (SettingsManager.new SMState.start).2) ∧
    ∀ n : Nat, (acquireN (n + 1)).2.initCount = 1 := by
  refine ⟨rfl, fun n => ?_⟩
  rw [acquireN_succ]
  rfl

theorem c2_one_time_init_witness : (acquireN 3).2.initCount = 1 :=
  c2_one_time_init.2 2

/-- C3: Mutation visibility: for every pair of references obtained from
object calls, after set_setting "theme" "light" through the first, a
get_setting "theme" through the second returns "light". -/
theorem c3_mutation_visibility (n r1 r2 : Nat)
    (h1 : r1 ∈ (acquireN n).1) (h2 : r2 ∈ (acquireN n).1) :
    ∃ st1,
      SettingsManager.set_setting (acquireN n).2 r1 "theme" "light" = some st1 ∧
      SettingsManager.get_setting st1 r2 "theme" = some (some "light", st1) := by
  cases n with
  | zero => simp [acquireN, SMState.start] at h1
  | succ m =>
      rw [acquireN_succ] at h1 h2 ⊢
      simp [List.mem_replicate] at h1 h2
      subst h1; subst h2
      exact ⟨_, rfl, rfl⟩

theorem c3_mutation_visibility_witness :
    ∃ st1,
      SettingsManager.set_setting (acquireN 2).2 0 "theme" "light" = some st1 ∧
      SettingsManager.get_setting st1 0 "theme" = some (some "light", st1) :=
  c3_mutation_visibility 2 0 0 (by decide) (by decide)

/-- C4: Absent-key behavior: on an allocated object, get_setting never
raises (it always returns a value), it returns the absent marker none
exactly when the name is not among the keys of the settings mapping, and
any value it returns for a present name is the stored entry. -/
theorem c4_absent_key (st : SMState) (r : Nat) (s : Settings)
    (h : lookupA st.heap r = some s) (name : String) :
    SettingsManager.get_setting st r name = some (lookupA s name, st) ∧
    (lookupA s name = none ↔ name ∉ keysA s) ∧
    ∀ v, lookupA s name = some v → (name, v) ∈ s := by
  refine ⟨?_, lookupA_eq_none_iff s name, fun v hv => lookupA_mem hv⟩
  simp [SettingsManager.get_setting, h]

theorem c4_absent_key_witness :
    SettingsManager.get_setting SMState.afterFirst 0 "nonexistent"
      = some (lookupA defaultSettings "nonexistent", SMState.afterFirst) ∧
    (lookupA defaultSettings "nonexistent" = none ↔
      "nonexistent" ∉ keysA defaultSettings) ∧
    ∀ v, lookupA defaultSettings "nonexistent" = some v →
      ("nonexistent", v) ∈ defaultSettings :=
  c4_absent_key SMState.afterFirst 0 defaultSettings (by decide) "nonexistent"

/-- C5: Construction protocol: once the class slot holds an instance, every
further object call is a no-op returning the existing reference and the
unchanged state (so no re-initialization), and along every sequence of API
steps the slot keeps holding that same instance: no transition back to the
Uninitialized state. -/
theorem c5_initialized_terminal (st : SMState) (r : Nat)
    (h : st._instance = some r) :
    SettingsManager.new st = (r, st) ∧
    ∀ st1, Reach st st1 → st1._instance = some r := by
  refine ⟨new_of_some h, fun st1 hreach => ?_⟩
  induction hreach with
  | refl => exact h
  | tail hr2 hstep ih =>
      cases hstep with
      | new => rw [new_of_some ih]; exact ih
      | set r1 name value st4 hset =>
          obtain ⟨s, hl, hst⟩ := set_setting_eq hset
          rw [hst]; exact ih
      | get r1 name v st4 hget =>
          rw [get_setting_state_eq hget]; exact ih

theorem c5_initialized_terminal_witness :
    SettingsManager.new SMState.afterFirst = (0, SMState.afterFirst) :=
  (c5_initialized_terminal SMState.afterFirst 0 (by decide)).1

/-- C6: set_setting totality: on an allocated object, for every name and
value, set_setting succeeds, the object's mapping becomes the in-place
insert-or-overwrite of the old one, the new mapping stores value at name,
and the key set is unchanged when the name was present and gains exactly
the new name at the end when it was absent. -/
theorem c6_set_setting_total (st : SMState) (r : Nat) (s : Settings)
    (h : lookupA st.heap r = some s) (name value : String) :
    ∃ st1, SettingsManager.set_setting st r name value = some st1 ∧
      lookupA st1.heap r = some (updateA s name value) ∧
      lookupA (updateA s name value) name = some value ∧
      keysA (updateA s name value)
        = if name ∈ keysA s then keysA s else keysA s ++ [name] := by
  refine ⟨⟨st.nextId, st._instance,
           updateA st.heap r (updateA s name value), st.initCount⟩,
    ?_, ?_, lookupA_updateA_self s name value, keysA_updateA s name value⟩
  · simp [SettingsManager.set_setting, h]
  · exact lookupA_updateA_self st.heap r (updateA s name value)

theorem c6_set_setting_total_witness :
    ∃ st1,
      SettingsManager.set_setting SMState.afterFirst 0 "font" "serif" = some st1 ∧
      lookupA st1.heap 0 = some (updateA defaultSettings "font" "serif") ∧
      lookupA (updateA defaultSettings "font" "serif") "font" = some "serif" ∧
      keysA (updateA defaultSettings "font" "serif")
        = if "font" ∈ keysA defaultSettings then keysA defaultSettings
          else keysA defaultSettings ++ ["font"] :=
  c6_set_setting_total SMState.afterFirst 0 defaultSettings (by decide) "font" "serif"

/-- C7: End-to-end scenario: from the fresh module state, the first object
call sees theme dark; after setting theme to light, a fresh object call
sees theme light; after further setting font to serif, font reads serif
and theme still reads light. -/
theorem c7_end_to_end :
    endToEndRun = some (some "dark", some "light", some "serif", some "light") := by
  decide

/-- C8: Frame condition on mutation: a successful set_setting keeps the
class slot and the allocation counter unchanged (the instance is mutated,
never replaced), rewrites only the entry for the given name in the target
object's mapping, and leaves every other object of the heap untouched. -/
theorem c8_set_setting_frame (st st1 : SMState) (r : Nat) (s : Settings)
    (h : lookupA st.heap r = some s) (name value : String)
    (hset : SettingsManager.set_setting st r name value = some st1) :
    st1._instance = st._instance ∧ st1.nextId = st.nextId ∧
    lookupA st1.heap r = some (updateA s name value) ∧
    (∀ k, k ≠ name → lookupA (updateA s name value) k = lookupA s k) ∧
    (∀ r1, r1 ≠ r → lookupA st1.heap r1 = lookupA st.heap r1) := by
  obtain ⟨s2, hl2, hst⟩ := set_setting_eq hset
  rw [h] at hl2
  obtain rfl : s = s2 := Option.some.inj hl2
  subst hst
  exact ⟨rfl, rfl, lookupA_updateA_self st.heap r (updateA s name value),
    fun k hk => lookupA_updateA_ne s name k value hk,
    fun r1 hr1 => lookupA_updateA_ne st.heap r r1 (updateA s name value) hr1⟩

theorem c8_set_setting_frame_witness :
    (⟨1, some 0, [(0, [("theme", "light")])], 1⟩ : SMState)._instance
      = SMState.afterFirst._instance :=
  (c8_set_setting_frame SMState.afterFirst
    ⟨1, some 0, [(0, [("theme", "light")])], 1⟩ 0 defaultSettings (by decide)
    "theme" "light" (by decide)).1

/-- C9: get_setting is read-only: whenever a get_setting call returns, the
state after the call equals the state before it, so neither the settings
mapping nor the class slot is changed by observing a setting. -/
theorem c9_get_setting_readonly (st st1 : SMState) (r : Nat) (name : String)
    (v : Option String)
    (h : SettingsManager.get_setting st r name = some (v, st1)) :
    st1 = st :=
  get_setting_state_eq h

theorem c9_get_setting_readonly_witness :
    SettingsManager.get_setting SMState.afterFirst 0 "theme"
      = some (some "dark", SMState.afterFirst) ∧
    SMState.afterFirst = SMState.afterFirst :=
  ⟨by decide,
   c9_get_setting_readonly SMState.afterFirst SMState.afterFirst 0 "theme"
     (some "dark") (by decide)⟩

/-- C10: LoggerFactory dispatch: create_logger returns a freshly
constructed ConsoleLogger for "console", FileLogger for "file",
DatabaseLogger for "database", raises ValueError for every other argument,
and two consecutive successful calls never return the same object. -/
theorem c10_logger_factory_dispatch (n : Nat) :
    LoggerFactory.create_logger "console" n
      = Except.ok (Logger.consoleLogger n, n + 1) ∧
    LoggerFactory.create_logger "file" n
      = Except.ok (Logger.fileLogger n, n + 1) ∧
    LoggerFactory.create_logger "database" n
      = Except.ok (Logger.databaseLogger n, n + 1) ∧
    (∀ t, t ≠ "console" → t ≠ "file" → t ≠ "database" →
      LoggerFactory.create_logger t n = Except.error "Invalid logger type argument") ∧
    ∀ t1 t2 l1 n1 l2 n2,
      LoggerFactory.create_logger t1 n = Except.ok (l1, n1) →
      LoggerFactory.create_logger t2 n1 = Except.ok (l2, n2) →
      l1.oid ≠ l2.oid := by
  refine ⟨rfl, rfl, rfl, fun t h1 h2 h3 => ?_, ?_⟩
  · simp [LoggerFactory.create_logger, h1, h2, h3]
  · intro t1 t2 l1 n1 l2 n2 ha hb
    obtain ⟨e1, rfl⟩ := create_logger_ok ha
    obtain ⟨e2, _⟩ := create_logger_ok hb
    rw [e1, e2]
    omega

theorem c10_logger_factory_dispatch_witness :
    LoggerFactory.create_logger "xyz" 0 = Except.error "Invalid logger type argument" :=
  (c10_logger_factory_dispatch 0).2.2.2.1 "xyz" (by decide) (by decide) (by decide)

end DesignPatterns
